import Mathlib

/-!
# Verification of the golift/ffmpeg encoder configuration library

A shallow embedding of the package's data model and operations:
the `Config` record, the default/bound constants, the normalization
pass `fixValues`, the setters, the constructor `Get`, the command
assembler `getVideoHandle`, and the two invokers `GetVideo` and
`SaveVideo` (modelled up to, but not including, process execution).

Go machine integers (`int`, `int64`) are modelled as `Int`: the code
performs only comparisons and assignments of small constants on them,
never arithmetic, so no overflow can occur and the embedding is exact.
String-to-number parsing in the numeric setters ignores its error and
always yields some machine integer; the setters are therefore embedded
as taking the already-parsed integer, universally quantified, which
covers every possible parse result.
-/

namespace Ffmpeg

/-- Default, maximum and minimum values for encoder configuration,
from the package-level variable block. -/
def DefaultFrameRate : Int := 5

def MinimumFrameRate : Int := 1

def MaximumFrameRate : Int := 60

def DefaultFrameHeight : Int := 720

def DefaultFrameWidth : Int := 1280

def MinimumFrameSize : Int := 100

def MaximumFrameSize : Int := 5000

def DefaultEncodeCRF : Int := 21

def MinimumEncodeCRF : Int := 16

def MaximumEncodeCRF : Int := 30

def DefaultCaptureTime : Int := 15

def MaximumCaptureTime : Int := 1200

def DefaultCaptureSize : Int := 2500000

def MaximumCaptureSize : Int := 104857600

def DefaultFFmpegPath : String := "/usr/local/bin/ffmpeg"

def DefaultProfile : String := "main"

def DefaultLevel : String := "3.0"

/-- The two distinguished error values of the library. -/
inductive Err where
  | invalidOutput
  | invalidInput
  deriving Repr, DecidableEq

/-- `Config` defines how ffmpeg shall transcode a stream
(struct `Config` in encode.go). -/
structure Config where
  FFMPEG : String
  Level : String
  Width : Int
  Height : Int
  CRF : Int
  Time : Int
  Audio : Bool
  Rate : Int
  Size : Int
  Prof : String
  Copy : Bool
  deriving Repr, DecidableEq

/-- The height block of `fixValues`: the if/else-if chain of assignments
to `e.config.Height`, written as a function of the field it reads and
writes. -/
def fixH (h : Int) : Int :=
  if h = 0 then DefaultFrameHeight
  else if h > MaximumFrameSize then MaximumFrameSize
  else if h < MinimumFrameSize then MinimumFrameSize
  else h

/-- The width block of `fixValues`. -/
def fixW (w : Int) : Int :=
  if w = 0 then DefaultFrameWidth
  else if w > MaximumFrameSize then MaximumFrameSize
  else if w < MinimumFrameSize then MinimumFrameSize
  else w

/-- The CRF block of `fixValues`. -/
def fixCRF (v : Int) : Int :=
  if v = 0 then DefaultEncodeCRF
  else if v < MinimumEncodeCRF then MinimumEncodeCRF
  else if v > MaximumEncodeCRF then MaximumEncodeCRF
  else v

/-- The rate block of `fixValues`. -/
def fixRate (v : Int) : Int :=
  if v = 0 then DefaultFrameRate
  else if v < MinimumFrameRate then MinimumFrameRate
  else if v > MaximumFrameRate then MaximumFrameRate
  else v

/-- The time block of `fixValues`. No minimums. -/
def fixTime (v : Int) : Int :=
  if v = 0 then DefaultCaptureTime
  else if v > MaximumCaptureTime then MaximumCaptureTime
  else v

/-- The size block of `fixValues`. No minimums. -/
def fixSize (v : Int) : Int :=
  if v = 0 then DefaultCaptureSize
  else if v > MaximumCaptureSize then MaximumCaptureSize
  else v

/-- `fixValues` makes sure video request values are sane (method
`fixValues` in encode.go). Each of its six blocks reads and writes a
single field; the blocks run in sequence on the mutable config. -/
def fixValues (c : Config) : Config :=
  let c := { c with Height := fixH c.Height }
  let c := { c with Width := fixW c.Width }
  let c := { c with CRF := fixCRF c.CRF }
  let c := { c with Rate := fixRate c.Rate }
  let c := { c with Time := fixTime c.Time }
  let c := { c with Size := fixSize c.Size }
  c

/-- `SetAudio` turns audio on or off; the boolean is the result of
`strconv.ParseBool` on the caller's string, whose error is ignored
(unparsable input yields `false`). -/
def setAudio (audio : Bool) (c : Config) : Config :=
  { c with Audio := audio }

/-- `SetLevel` sets the h264 transcode level (method `SetLevel`). -/
def setLevel (level : String) (c : Config) : Config :=
  let c := { c with Level := level }
  if level ≠ "3.0" ∧ level ≠ "3.1" ∧ level ≠ "4.0" ∧ level ≠ "4.1" ∧ level ≠ "4.2" then
    { c with Level := DefaultLevel }
  else c

/-- `SetProfile` sets the h264 transcode profile (method `SetProfile`). -/
def setProfile (profile : String) (c : Config) : Config :=
  let c := { c with Prof := profile }
  if c.Prof ≠ "main" ∧ c.Prof ≠ "baseline" ∧ c.Prof ≠ "high" then
    { c with Prof := DefaultProfile }
  else c

/-- `SetWidth`: the integer is the (error-ignored) `strconv.Atoi` result. -/
def setWidth (width : Int) (c : Config) : Config :=
  fixValues { c with Width := width }

/-- `SetHeight`: the integer is the (error-ignored) `strconv.Atoi` result. -/
def setHeight (height : Int) (c : Config) : Config :=
  fixValues { c with Height := height }

/-- `SetCRF`: the integer is the (error-ignored) `strconv.Atoi` result. -/
def setCRF (crf : Int) (c : Config) : Config :=
  fixValues { c with CRF := crf }

/-- `SetTime`: the integer is the (error-ignored) `strconv.Atoi` result. -/
def setTime (seconds : Int) (c : Config) : Config :=
  fixValues { c with Time := seconds }

/-- `SetRate`: the integer is the (error-ignored) `strconv.Atoi` result. -/
def setRate (rate : Int) (c : Config) : Config :=
  fixValues { c with Rate := rate }

/-- `SetSize`: the integer is the (error-ignored) `strconv.ParseInt` result. -/
def setSize (size : Int) (c : Config) : Config :=
  fixValues { c with Size := size }

/-- `Get` constructs an encoder from caller-supplied overrides
(function `Get` in encode.go): default the executable path, then
run level/profile normalization and the numeric clamp pass. -/
def get (c : Config) : Config :=
  let c := if c.FFMPEG = "" then { c with FFMPEG := DefaultFFmpegPath } else c
  let c := setLevel c.Level c
  let c := setProfile c.Prof c
  fixValues c

/-- Decimal rendering of a machine integer: the semantics of Go's
`strconv.Itoa` and `strconv.FormatInt(_, 10)`, both of which produce
the plain base-10 representation with a leading minus sign when
negative. `Nat.repr` is exactly that representation for naturals. -/
def itoa (i : Int) : String :=
  if i < 0 then "-" ++ Nat.repr (-i).toNat else Nat.repr i.toNat

/-- Go's `filepath.Base` on a Unix path: empty path yields ".",
trailing separators are removed, the last element is returned, and a
path of only separators yields "/". -/
def filepathBase (p : String) : String :=
  if p = "" then "."
  else
    let stripped := (p.data.reverse.dropWhile (fun ch => ch = '/')).reverse
    if stripped = [] then "/"
    else String.mk (stripped.reverse.takeWhile (fun ch => ch ≠ '/')).reverse

/-- `getVideoHandle` cobbles together the ffmpeg command (method
`getVideoHandle` in encode.go, translated append by append). Returns
the joined command string and the argument vector from which the
process is built (`exec.Command(arg[0], arg[1:]...)`). -/
def getVideoHandle (c : Config) (input output title : String) : String × List String :=
  let title := if title = "" then filepathBase output else title
  -- the order of these values is important.
  let arg : List String :=
    [c.FFMPEG,
     "-v", "16", -- log level
     "-rtsp_transport", "tcp",
     "-i", input,
     "-f", "mov",
     "-metadata", "title=\"" ++ title ++ "\"",
     "-y", "-map", "0"]
  let arg := if c.Size > 0 then arg ++ ["-fs", itoa c.Size] else arg
  let arg := if c.Time > 0 then arg ++ ["-t", itoa c.Time] else arg
  let arg :=
    if !c.Copy then
      arg ++ ["-vcodec", "libx264",
        "-profile:v", c.Prof,
        "-level", c.Level,
        "-pix_fmt", "yuv420p",
        "-movflags", "faststart",
        "-s", itoa c.Width ++ "x" ++ itoa c.Height,
        "-preset", "superfast",
        "-crf", itoa c.CRF,
        "-r", itoa c.Rate]
    else arg ++ ["-c", "copy"]
  let arg := if !c.Audio then arg ++ ["-an"] else arg ++ ["-c:a", "copy"]
  let arg := arg ++ [output] -- save file path goes last.
  (String.intercalate " " arg, arg)

/-- The observable outcome of `GetVideo`/`SaveVideo` up to the process
boundary: either the call fails a validation check and returns an error
with the given command string before any process is spawned, or it
proceeds to spawn the external process built from the argument vector. -/
inductive CallOutcome where
  | fail (cmdStr : String) (e : Err)
  | spawn (cmdStr : String) (args : List String)
  deriving Repr, DecidableEq

/-- `GetVideo` (stream mode): rejects an empty input, otherwise
assembles with the streaming sentinel "-" as output and spawns. -/
def getVideo (c : Config) (input title : String) : CallOutcome :=
  if input = "" then .fail "" .invalidInput
  else
    let h := getVideoHandle c input "-" title
    .spawn h.1 h.2

/-- `SaveVideo` (file mode): rejects an empty input, then an output
that is empty or the streaming sentinel, otherwise assembles and
spawns. -/
def saveVideo (c : Config) (input output title : String) : CallOutcome :=
  if input = "" then .fail "" .invalidInput
  else if output = "" ∨ output = "-" then .fail "" .invalidOutput
  else
    let h := getVideoHandle c input output title
    .spawn h.1 h.2

/-! ## Per-field views of the clamp pass -/

/-- `fixValues` as a record of its per-field actions. -/
theorem fixValues_eq (c : Config) :
    fixValues c =
      { c with
        Height := fixH c.Height
        Width := fixW c.Width
        CRF := fixCRF c.CRF
        Rate := fixRate c.Rate
        Time := fixTime c.Time
        Size := fixSize c.Size } := rfl

/-- The documented domain of the profile field. -/
def profOK (s : String) : Prop :=
  s = "main" ∨ s = "baseline" ∨ s = "high"

/-- The documented domain of the level field. -/
def levelOK (s : String) : Prop :=
  s = "3.0" ∨ s = "3.1" ∨ s = "4.0" ∨ s = "4.1" ∨ s = "4.2"

instance (s : String) : Decidable (profOK s) := by unfold profOK; infer_instance

instance (s : String) : Decidable (levelOK s) := by unfold levelOK; infer_instance

/-- A configuration in which every field lies within its documented
bounds (the bounds table of the spec, §3): width/height/CRF/rate within
their closed ranges, time and size nonzero and capped from above only,
profile and level in their enumerations. -/
def Normalized (c : Config) : Prop :=
  (MinimumFrameSize ≤ c.Height ∧ c.Height ≤ MaximumFrameSize) ∧
  (MinimumFrameSize ≤ c.Width ∧ c.Width ≤ MaximumFrameSize) ∧
  (MinimumEncodeCRF ≤ c.CRF ∧ c.CRF ≤ MaximumEncodeCRF) ∧
  (MinimumFrameRate ≤ c.Rate ∧ c.Rate ≤ MaximumFrameRate) ∧
  (c.Time ≠ 0 ∧ c.Time ≤ MaximumCaptureTime) ∧
  (c.Size ≠ 0 ∧ c.Size ≤ MaximumCaptureSize) ∧
  profOK c.Prof ∧ levelOK c.Level

instance (c : Config) : Decidable (Normalized c) := by unfold Normalized; infer_instance

theorem fixH_bounds (h : Int) : MinimumFrameSize ≤ fixH h ∧ fixH h ≤ MaximumFrameSize := by
  simp only [fixH, MinimumFrameSize, MaximumFrameSize, DefaultFrameHeight]
  split_ifs <;> omega

theorem fixW_bounds (w : Int) : MinimumFrameSize ≤ fixW w ∧ fixW w ≤ MaximumFrameSize := by
  simp only [fixW, MinimumFrameSize, MaximumFrameSize, DefaultFrameWidth]
  split_ifs <;> omega

theorem fixCRF_bounds (v : Int) : MinimumEncodeCRF ≤ fixCRF v ∧ fixCRF v ≤ MaximumEncodeCRF := by
  simp only [fixCRF, MinimumEncodeCRF, MaximumEncodeCRF, DefaultEncodeCRF]
  split_ifs <;> omega

theorem fixRate_bounds (v : Int) :
    MinimumFrameRate ≤ fixRate v ∧ fixRate v ≤ MaximumFrameRate := by
  simp only [fixRate, MinimumFrameRate, MaximumFrameRate, DefaultFrameRate]
  split_ifs <;> omega

theorem fixTime_bounds (v : Int) : fixTime v ≠ 0 ∧ fixTime v ≤ MaximumCaptureTime := by
  simp only [fixTime, MaximumCaptureTime, DefaultCaptureTime]
  split_ifs <;> omega

theorem fixSize_bounds (v : Int) : fixSize v ≠ 0 ∧ fixSize v ≤ MaximumCaptureSize := by
  simp only [fixSize, MaximumCaptureSize, DefaultCaptureSize]
  split_ifs <;> omega

/-- `setLevel` as a record update. -/
theorem setLevel_eq (l : String) (c : Config) :
    setLevel l c = { c with Level := if levelOK l then l else DefaultLevel } := by
  simp only [setLevel, profOK, levelOK]
  split_ifs <;> simp_all [levelOK]

/-- `setProfile` as a record update. -/
theorem setProfile_eq (p : String) (c : Config) :
    setProfile p c = { c with Prof := if profOK p then p else DefaultProfile } := by
  simp only [setProfile, profOK]
  split_ifs <;> simp_all [profOK]

/-- The clamp pass lands in the documented numeric bounds and leaves
the string and boolean fields alone. -/
theorem normalized_fixValues (c : Config) (hp : profOK c.Prof) (hl : levelOK c.Level) :
    Normalized (fixValues c) := by
  rw [fixValues_eq]
  exact ⟨fixH_bounds _, fixW_bounds _, fixCRF_bounds _, fixRate_bounds _,
    fixTime_bounds _, fixSize_bounds _, hp, hl⟩

/-- Configurations observable through the library's interface: those
just built by `Get`, and those further mutated by any chain of setter
calls. -/
inductive Reachable : Config → Prop where
  | construct (c : Config) : Reachable (get c)
  | audio (b : Bool) {c : Config} : Reachable c → Reachable (setAudio b c)
  | level (l : String) {c : Config} : Reachable c → Reachable (setLevel l c)
  | profile (p : String) {c : Config} : Reachable c → Reachable (setProfile p c)
  | width (v : Int) {c : Config} : Reachable c → Reachable (setWidth v c)
  | height (v : Int) {c : Config} : Reachable c → Reachable (setHeight v c)
  | crf (v : Int) {c : Config} : Reachable c → Reachable (setCRF v c)
  | time (v : Int) {c : Config} : Reachable c → Reachable (setTime v c)
  | rate (v : Int) {c : Config} : Reachable c → Reachable (setRate v c)
  | size (v : Int) {c : Config} : Reachable c → Reachable (setSize v c)

theorem profOK_default : profOK DefaultProfile := Or.inl rfl

theorem levelOK_default : levelOK DefaultLevel := Or.inl rfl

theorem setLevel_levelOK (l : String) (c : Config) : levelOK (setLevel l c).Level := by
  rw [setLevel_eq]
  by_cases h : levelOK l <;> simp [h, levelOK_default]

theorem setProfile_profOK (p : String) (c : Config) : profOK (setProfile p c).Prof := by
  rw [setProfile_eq]
  by_cases h : profOK p <;> simp [h, profOK_default]

theorem setProfile_Level (p : String) (c : Config) : (setProfile p c).Level = c.Level := by
  rw [setProfile_eq]

/-- The all-zero configuration record, as a caller that sets no field
would pass to `Get`. -/
def cfg0 : Config :=
  { FFMPEG := "", Level := "", Width := 0, Height := 0, CRF := 0, Time := 0,
    Audio := false, Rate := 0, Size := 0, Prof := "", Copy := false }

/-- C1: for every configuration and every setter (SetWidth, SetHeight,
SetCRF, SetTime, SetRate, SetSize, SetProfile, SetLevel, SetAudio, and
construction via Get), after the setter returns every numeric and enum
field of the configuration lies within its documented bounds; since a
configuration is only observable through `Get` and the setters, it is
never seen in an invalid state. -/
theorem C1_config_always_normalized (c : Config) (h : Reachable c) : Normalized c := by
  induction h with
  | construct c =>
    apply normalized_fixValues
    · exact setProfile_profOK _ _
    · rw [setProfile_Level]
      exact setLevel_levelOK _ _
  | audio b _ ih => exact ih
  | level l _ ih =>
    obtain ⟨h1, h2, h3, h4, h5, h6, h7, _⟩ := ih
    rw [setLevel_eq]
    exact ⟨h1, h2, h3, h4, h5, h6, h7, by
      by_cases h : levelOK l <;> simp [h, levelOK_default]⟩
  | profile p _ ih =>
    obtain ⟨h1, h2, h3, h4, h5, h6, _, h8⟩ := ih
    rw [setProfile_eq]
    exact ⟨h1, h2, h3, h4, h5, h6, by
      by_cases h : profOK p <;> simp [h, profOK_default], h8⟩
  | width v _ ih => exact normalized_fixValues _ ih.2.2.2.2.2.2.1 ih.2.2.2.2.2.2.2
  | height v _ ih => exact normalized_fixValues _ ih.2.2.2.2.2.2.1 ih.2.2.2.2.2.2.2
  | crf v _ ih => exact normalized_fixValues _ ih.2.2.2.2.2.2.1 ih.2.2.2.2.2.2.2
  | time v _ ih => exact normalized_fixValues _ ih.2.2.2.2.2.2.1 ih.2.2.2.2.2.2.2
  | rate v _ ih => exact normalized_fixValues _ ih.2.2.2.2.2.2.1 ih.2.2.2.2.2.2.2
  | size v _ ih => exact normalized_fixValues _ ih.2.2.2.2.2.2.1 ih.2.2.2.2.2.2.2

/-- Witness for C1 at the all-zero configuration constructed by `Get`. -/
theorem C1_config_always_normalized_witness :
    Reachable (get cfg0) ∧ Normalized (get cfg0) :=
  ⟨Reachable.construct cfg0,
   C1_config_always_normalized (get cfg0) (Reachable.construct cfg0)⟩

/-! ## Idempotence of the clamp pass -/

theorem fixH_fixH (h : Int) : fixH (fixH h) = fixH h := by
  simp only [fixH, MinimumFrameSize, MaximumFrameSize, DefaultFrameHeight]
  split_ifs <;> omega

theorem fixW_fixW (w : Int) : fixW (fixW w) = fixW w := by
  simp only [fixW, MinimumFrameSize, MaximumFrameSize, DefaultFrameWidth]
  split_ifs <;> omega

theorem fixCRF_fixCRF (v : Int) : fixCRF (fixCRF v) = fixCRF v := by
  simp only [fixCRF, MinimumEncodeCRF, MaximumEncodeCRF, DefaultEncodeCRF]
  split_ifs <;> omega

theorem fixRate_fixRate (v : Int) : fixRate (fixRate v) = fixRate v := by
  simp only [fixRate, MinimumFrameRate, MaximumFrameRate, DefaultFrameRate]
  split_ifs <;> omega

theorem fixTime_fixTime (v : Int) : fixTime (fixTime v) = fixTime v := by
  simp only [fixTime, MaximumCaptureTime, DefaultCaptureTime]
  split_ifs <;> omega

theorem fixSize_fixSize (v : Int) : fixSize (fixSize v) = fixSize v := by
  simp only [fixSize, MaximumCaptureSize, DefaultCaptureSize]
  split_ifs <;> omega

theorem fixH_id (h : Int) (h1 : MinimumFrameSize ≤ h) (h2 : h ≤ MaximumFrameSize) :
    fixH h = h := by
  simp only [MinimumFrameSize] at h1
  simp only [MaximumFrameSize] at h2
  simp only [fixH, MinimumFrameSize, MaximumFrameSize, DefaultFrameHeight]
  split_ifs <;> omega

theorem fixW_id (w : Int) (h1 : MinimumFrameSize ≤ w) (h2 : w ≤ MaximumFrameSize) :
    fixW w = w := by
  simp only [MinimumFrameSize] at h1
  simp only [MaximumFrameSize] at h2
  simp only [fixW, MinimumFrameSize, MaximumFrameSize, DefaultFrameWidth]
  split_ifs <;> omega

theorem fixCRF_id (v : Int) (h1 : MinimumEncodeCRF ≤ v) (h2 : v ≤ MaximumEncodeCRF) :
    fixCRF v = v := by
  simp only [MinimumEncodeCRF] at h1
  simp only [MaximumEncodeCRF] at h2
  simp only [fixCRF, MinimumEncodeCRF, MaximumEncodeCRF, DefaultEncodeCRF]
  split_ifs <;> omega

theorem fixRate_id (v : Int) (h1 : MinimumFrameRate ≤ v) (h2 : v ≤ MaximumFrameRate) :
    fixRate v = v := by
  simp only [MinimumFrameRate] at h1
  simp only [MaximumFrameRate] at h2
  simp only [fixRate, MinimumFrameRate, MaximumFrameRate, DefaultFrameRate]
  split_ifs <;> omega

theorem fixTime_id (v : Int) (h1 : v ≠ 0) (h2 : v ≤ MaximumCaptureTime) : fixTime v = v := by
  simp only [MaximumCaptureTime] at h2
  simp only [fixTime, MaximumCaptureTime, DefaultCaptureTime]
  split_ifs <;> omega

theorem fixSize_id (v : Int) (h1 : v ≠ 0) (h2 : v ≤ MaximumCaptureSize) : fixSize v = v := by
  simp only [MaximumCaptureSize] at h2
  simp only [fixSize, MaximumCaptureSize, DefaultCaptureSize]
  split_ifs <;> omega

/-- C5: the clamp pass is idempotent — running `fixValues` twice equals
running it once — and on an already-normalized configuration it changes
nothing. -/
theorem C5_fixValues_idempotent (c : Config) :
    fixValues (fixValues c) = fixValues c ∧ (Normalized c → fixValues c = c) := by
  obtain ⟨ff, lv, w, h, cr, t, a, r, s, p, cp⟩ := c
  constructor
  · simp [fixValues_eq, Config.mk.injEq, fixW_fixW, fixH_fixH, fixCRF_fixCRF,
      fixTime_fixTime, fixRate_fixRate, fixSize_fixSize]
  · rintro ⟨⟨hh1, hh2⟩, ⟨hw1, hw2⟩, ⟨hc1, hc2⟩, ⟨hr1, hr2⟩, ⟨ht1, ht2⟩, ⟨hs1, hs2⟩, _, _⟩
    simp [fixValues_eq, Config.mk.injEq, fixW_id w hw1 hw2, fixH_id h hh1 hh2,
      fixCRF_id cr hc1 hc2, fixTime_id t ht1 ht2, fixRate_id r hr1 hr2,
      fixSize_id s hs1 hs2]

/-- Witness for C5 at the configuration `Get` builds from all zeroes. -/
theorem C5_fixValues_idempotent_witness :
    fixValues (fixValues (get cfg0)) = fixValues (get cfg0) ∧
      Normalized (get cfg0) ∧ fixValues (get cfg0) = get cfg0 :=
  ⟨(C5_fixValues_idempotent (get cfg0)).1, by decide,
   (C5_fixValues_idempotent (get cfg0)).2 (by decide)⟩

/-- C3: `SetProfile` stores and returns its argument exactly when it is
one of "main", "baseline", "high", and the default profile otherwise;
`SetLevel` stores and returns its argument exactly when it is one of
"3.0", "3.1", "4.0", "4.1", "4.2", and the default level otherwise. -/
theorem C3_setProfile_setLevel (c : Config) (p l : String) :
    (setProfile p c).Prof = (if profOK p then p else DefaultProfile) ∧
      (setLevel l c).Level = (if levelOK l then l else DefaultLevel) := by
  rw [setProfile_eq, setLevel_eq]
  exact ⟨rfl, rfl⟩

/-- C9: `SetAudio`, `SetProfile` and `SetLevel` each modify only their
own field: the resulting configuration is the starting one with just
that field replaced, so every numeric field, the executable path, the
copy flag and the other two of audio/profile/level are untouched and no
clamp pass runs. -/
theorem C9_setters_frame (c : Config) (b : Bool) (p l : String) :
    setAudio b c = { c with Audio := (setAudio b c).Audio } ∧
      setProfile p c = { c with Prof := (setProfile p c).Prof } ∧
      setLevel l c = { c with Level := (setLevel l c).Level } :=
  ⟨rfl, by rw [setProfile_eq], by rw [setLevel_eq]⟩

/-- C8: command assembly is deterministic — the assembler's output
(string and argument vector alike) depends only on the configuration
and the three call arguments, so two invocations on equal inputs give
byte-identical results. -/
theorem C8_assembler_deterministic (c c' : Config) (i i' o o' t t' : String)
    (hc : c = c') (hi : i = i') (ho : o = o') (ht : t = t') :
    (getVideoHandle c i o t).1 = (getVideoHandle c' i' o' t').1 ∧
      (getVideoHandle c i o t).2 = (getVideoHandle c' i' o' t').2 := by
  subst hc hi ho ht
  exact ⟨rfl, rfl⟩

/-- Witness for C8 at a concrete configuration and call. -/
theorem C8_assembler_deterministic_witness :
    (getVideoHandle (get cfg0) "rtsp://x" "/tmp/out.mov" "T").1 =
        (getVideoHandle (get cfg0) "rtsp://x" "/tmp/out.mov" "T").1 ∧
      (getVideoHandle (get cfg0) "rtsp://x" "/tmp/out.mov" "T").2 =
        (getVideoHandle (get cfg0) "rtsp://x" "/tmp/out.mov" "T").2 :=
  C8_assembler_deterministic (get cfg0) (get cfg0) "rtsp://x" "rtsp://x"
    "/tmp/out.mov" "/tmp/out.mov" "T" "T" rfl rfl rfl rfl

/-- C6: `SaveVideo` with empty input fails with the invalid-input error
and an empty command string; with non-empty input and an output that is
empty or the streaming sentinel it fails with the invalid-output error;
`GetVideo` with empty input fails with the invalid-input error; in all
these cases the outcome is a `fail`, i.e. no process is spawned. -/
theorem C6_validation_errors (c : Config) (input output title : String) :
    saveVideo c "" output title = .fail "" .invalidInput ∧
      (input ≠ "" → saveVideo c input "" title = .fail "" .invalidOutput) ∧
      (input ≠ "" → saveVideo c input "-" title = .fail "" .invalidOutput) ∧
      getVideo c "" title = .fail "" .invalidInput := by
  refine ⟨rfl, fun h => ?_, fun h => ?_, rfl⟩ <;> simp [saveVideo, h]

/-- Witness for C6 at a concrete configuration and call strings. -/
theorem C6_validation_errors_witness :
    saveVideo (get cfg0) "" "/tmp/out.mov" "T" = .fail "" .invalidInput ∧
      ("rtsp://x" ≠ "" →
        saveVideo (get cfg0) "rtsp://x" "" "T" = .fail "" .invalidOutput) ∧
      ("rtsp://x" ≠ "" →
        saveVideo (get cfg0) "rtsp://x" "-" "T" = .fail "" .invalidOutput) ∧
      getVideo (get cfg0) "" "T" = .fail "" .invalidInput :=
  C6_validation_errors (get cfg0) "rtsp://x" "/tmp/out.mov" "T"

/-! ## The argument list, segment by segment -/

/-- The fixed head of the argument list built by `getVideoHandle`. -/
def baseArgs (c : Config) (input title : String) : List String :=
  [c.FFMPEG,
   "-v", "16",
   "-rtsp_transport", "tcp",
   "-i", input,
   "-f", "mov",
   "-metadata", "title=\"" ++ title ++ "\"",
   "-y", "-map", "0"]

/-- The size-limit segment: present exactly when `Size > 0`. -/
def sizeSeg (c : Config) : List String :=
  if c.Size > 0 then ["-fs", itoa c.Size] else []

/-- The duration segment: present exactly when `Time > 0`. -/
def timeSeg (c : Config) : List String :=
  if c.Time > 0 then ["-t", itoa c.Time] else []

/-- The transcode segment when not in copy mode, or the generic
stream-copy flag in copy mode. -/
def videoSeg (c : Config) : List String :=
  if !c.Copy then
    ["-vcodec", "libx264",
     "-profile:v", c.Prof,
     "-level", c.Level,
     "-pix_fmt", "yuv420p",
     "-movflags", "faststart",
     "-s", itoa c.Width ++ "x" ++ itoa c.Height,
     "-preset", "superfast",
     "-crf", itoa c.CRF,
     "-r", itoa c.Rate]
  else ["-c", "copy"]

/-- The audio segment: disable audio, or copy the audio stream. -/
def audioSeg (c : Config) : List String :=
  if !c.Audio then ["-an"] else ["-c:a", "copy"]

/-- The argument vector of `getVideoHandle` as the concatenation of its
segments. -/
theorem args_eq (c : Config) (i o t : String) :
    (getVideoHandle c i o t).2 =
      baseArgs c i (if t = "" then filepathBase o else t) ++
        sizeSeg c ++ timeSeg c ++ videoSeg c ++ audioSeg c ++ [o] := by
  simp only [getVideoHandle, baseArgs, sizeSeg, timeSeg, videoSeg, audioSeg]
  split_ifs <;> simp

/-- The command string of `getVideoHandle` is the space-join of its
argument vector. -/
theorem cmdStr_eq (c : Config) (i o t : String) :
    (getVideoHandle c i o t).1 = String.intercalate " " (getVideoHandle c i o t).2 := rfl

/-! ## Decimal strings contain only digits -/

theorem digitChar_isDigit (k : Nat) (hk : k < 10) : (Nat.digitChar k).isDigit = true := by
  interval_cases k <;> decide

theorem toDigitsCore_isDigit (f : Nat) :
    ∀ (n : Nat) (acc : List Char), (∀ ch ∈ acc, ch.isDigit = true) →
      ∀ ch ∈ Nat.toDigitsCore 10 f n acc, ch.isDigit = true := by
  induction f with
  | zero => intro n acc hacc ch hch; exact hacc ch hch
  | succ f ih =>
    intro n acc hacc ch hch
    rw [Nat.toDigitsCore] at hch
    by_cases hn : n / 10 = 0
    · simp only [hn, if_pos rfl] at hch
      rcases List.mem_cons.mp hch with h1 | h2
      · subst h1; exact digitChar_isDigit _ (Nat.mod_lt _ (by decide))
      · exact hacc ch h2
    · simp only [if_neg hn] at hch
      refine ih (n / 10) _ ?_ ch hch
      intro ch2 hch2
      rcases List.mem_cons.mp hch2 with h1 | h2
      · subst h1; exact digitChar_isDigit _ (Nat.mod_lt _ (by decide))
      · exact hacc ch2 h2

theorem natRepr_isDigit (n : Nat) : ∀ ch ∈ (Nat.repr n).data, ch.isDigit = true := by
  intro ch hch
  rw [Nat.repr, Nat.toDigits] at hch
  exact toDigitsCore_isDigit _ _ _ (by intro ch2 hch2; cases hch2) ch hch

/-- A positive machine integer renders to a pure digit string. -/
theorem itoa_pos_isDigit (i : Int) (hi : 0 < i) :
    ∀ ch ∈ (itoa i).data, ch.isDigit = true := by
  intro ch hch
  rw [itoa, if_neg (by omega)] at hch
  exact natRepr_isDigit _ ch hch

/-- Strings of digits (possibly with the size separator 'x') never
collide with a string whose first character is '-'. -/
theorem ne_of_digitish (f s : String) (hf : f.data.head? = some '-')
    (hs : ∀ ch ∈ s.data, ch.isDigit = true ∨ ch = 'x') : f ≠ s := by
  intro he
  subst he
  cases hd : f.data with
  | nil => rw [hd] at hf; cases hf
  | cons ch l =>
    rw [hd] at hf
    have : ch = '-' := by simpa using hf
    subst this
    have := hs '-' (by rw [hd]; exact List.mem_cons_self _ _)
    revert this
    decide

/-- Strings whose first characters differ are different. -/
theorem ne_of_head (f s : String) (c1 c2 : Char) (hf : f.data.head? = some c1)
    (hs : s.data.head? = some c2) (hne : c1 ≠ c2) : f ≠ s := by
  intro he
  subst he
  rw [hf] at hs
  exact hne (by simpa using hs)

/-- The metadata value always starts with 't', whatever the title. -/
theorem titleStr_head (t : String) :
    ("title=\"" ++ t ++ "\"").data.head? = some 't' := by
  have : ("title=\"" ++ t ++ "\"").data = "title=\"".data ++ (t.data ++ "\"".data) := by
    simp [String.data_append]
  rw [this]
  rfl

/-! ## Which flags appear in the argument list -/

/-- The fixed dash-flags of the argument list's head. -/
def baseFlags : List String :=
  ["-v", "-rtsp_transport", "-i", "-f", "-metadata", "-y", "-map"]

/-- The dash-flags of the transcode segment. -/
def videoFlags : List String :=
  ["-vcodec", "-profile:v", "-level", "-pix_fmt", "-movflags", "-s", "-preset", "-crf", "-r"]

theorem notMem_baseArgs (c : Config) (i t f : String) (hff : f ≠ c.FFMPEG) (hi : f ≠ i)
    (hhead : f.data.head? = some '-') (hfixed : f ∉ baseFlags) :
    f ∉ baseArgs c i t := by
  have h16 : f ≠ "16" := ne_of_head f "16" '-' '1' hhead rfl (by decide)
  have htcp : f ≠ "tcp" := ne_of_head f "tcp" '-' 't' hhead rfl (by decide)
  have hmov : f ≠ "mov" := ne_of_head f "mov" '-' 'm' hhead rfl (by decide)
  have h0 : f ≠ "0" := ne_of_head f "0" '-' '0' hhead rfl (by decide)
  have httl : f ≠ "title=\"" ++ t ++ "\"" :=
    ne_of_head f _ '-' 't' hhead (titleStr_head t) (by decide)
  simp only [baseFlags, List.mem_cons, List.mem_singleton, not_or] at hfixed
  simp only [baseArgs, List.mem_cons, not_or]
  refine ⟨hff, hfixed.1, h16, hfixed.2.1, htcp, hfixed.2.2.1, hi, hfixed.2.2.2.1, hmov,
    hfixed.2.2.2.2.1, httl, hfixed.2.2.2.2.2.1, hfixed.2.2.2.2.2.2.1, h0, ?_⟩
  simp

theorem mem_sizeSeg_iff (c : Config) (f : String) (hhead : f.data.head? = some '-') :
    f ∈ sizeSeg c ↔ c.Size > 0 ∧ f = "-fs" := by
  by_cases hS : c.Size > 0
  · have hIt : f ≠ itoa c.Size :=
      ne_of_digitish f _ hhead (fun ch hch => Or.inl (itoa_pos_isDigit _ hS ch hch))
    simp [sizeSeg, hS, hIt]
  · simp [sizeSeg, hS]

theorem mem_timeSeg_iff (c : Config) (f : String) (hhead : f.data.head? = some '-') :
    f ∈ timeSeg c ↔ c.Time > 0 ∧ f = "-t" := by
  by_cases hT : c.Time > 0
  · have hIt : f ≠ itoa c.Time :=
      ne_of_digitish f _ hhead (fun ch hch => Or.inl (itoa_pos_isDigit _ hT ch hch))
    simp [timeSeg, hT, hIt]
  · simp [timeSeg, hT]

theorem mem_videoSeg_iff (c : Config) (f : String) (hnorm : Normalized c)
    (hhead : f.data.head? = some '-') :
    f ∈ videoSeg c ↔ (c.Copy = false ∧ f ∈ videoFlags) ∨ (c.Copy = true ∧ f = "-c") := by
  obtain ⟨⟨hh1, -⟩, ⟨hw1, -⟩, ⟨hc1, -⟩, ⟨hr1, -⟩, -, -, hprof, hlevel⟩ := hnorm
  have hW : 0 < c.Width := by
    simp only [MinimumFrameSize] at hw1; omega
  have hH : 0 < c.Height := by
    simp only [MinimumFrameSize] at hh1; omega
  have hC : 0 < c.CRF := by
    simp only [MinimumEncodeCRF] at hc1; omega
  have hR : 0 < c.Rate := by
    simp only [MinimumFrameRate] at hr1; omega
  have hfp : f ≠ c.Prof := by
    rcases show c.Prof = "main" ∨ c.Prof = "baseline" ∨ c.Prof = "high" from hprof with
      h | h | h <;> rw [h] <;> exact ne_of_head f _ '-' _ hhead rfl (by decide)
  have hfl : f ≠ c.Level := by
    rcases show c.Level = "3.0" ∨ c.Level = "3.1" ∨ c.Level = "4.0" ∨ c.Level = "4.1" ∨
        c.Level = "4.2" from hlevel with h | h | h | h | h <;> rw [h] <;>
      exact ne_of_head f _ '-' _ hhead rfl (by decide)
  have hwh : f ≠ itoa c.Width ++ "x" ++ itoa c.Height := by
    refine ne_of_digitish f _ hhead ?_
    intro ch hch
    rw [String.data_append, String.data_append] at hch
    rcases List.mem_append.mp hch with h | h
    · rcases List.mem_append.mp h with h2 | h2
      · exact Or.inl (itoa_pos_isDigit _ hW ch h2)
      · right; simpa using h2
    · exact Or.inl (itoa_pos_isDigit _ hH ch h)
  have hcrf : f ≠ itoa c.CRF :=
    ne_of_digitish f _ hhead (fun ch hch => Or.inl (itoa_pos_isDigit _ hC ch hch))
  have hrate : f ≠ itoa c.Rate :=
    ne_of_digitish f _ hhead (fun ch hch => Or.inl (itoa_pos_isDigit _ hR ch hch))
  have hlib : f ≠ "libx264" := ne_of_head f _ '-' 'l' hhead rfl (by decide)
  have hyuv : f ≠ "yuv420p" := ne_of_head f _ '-' 'y' hhead rfl (by decide)
  have hfast : f ≠ "faststart" := ne_of_head f _ '-' 'f' hhead rfl (by decide)
  have hsup : f ≠ "superfast" := ne_of_head f _ '-' 's' hhead rfl (by decide)
  have hcopy : f ≠ "copy" := ne_of_head f _ '-' 'c' hhead rfl (by decide)
  cases hcp : c.Copy with
  | false =>
    simp [videoSeg, videoFlags, hcp, hfp, hfl, hwh, hcrf, hrate, hlib, hyuv, hfast, hsup]
  | true =>
    simp [videoSeg, videoFlags, hcp, hcopy]

theorem mem_audioSeg_iff (c : Config) (f : String) (hhead : f.data.head? = some '-') :
    f ∈ audioSeg c ↔ (c.Audio = false ∧ f = "-an") ∨ (c.Audio = true ∧ f = "-c:a") := by
  have hcopy : f ≠ "copy" := ne_of_head f _ '-' 'c' hhead rfl (by decide)
  cases ha : c.Audio with
  | false =>
    simp only [audioSeg, ha, Bool.not_false, if_true, List.mem_cons, List.not_mem_nil,
      or_false]
    tauto
  | true =>
    simp only [audioSeg, ha, Bool.not_true, Bool.false_eq_true, if_false, List.mem_cons,
      List.not_mem_nil, or_false, hcopy]
    tauto

/-- Which dash-flags appear in the assembled argument list, for a
normalized configuration and call strings that do not collide with a
flag: exactly the conditional segments the code appends. -/
theorem flag_mem_args_iff (c : Config) (i o t f : String) (hnorm : Normalized c)
    (hff : f ≠ c.FFMPEG) (hi : f ≠ i) (ho : f ≠ o)
    (hhead : f.data.head? = some '-') (hfixed : f ∉ baseFlags) :
    f ∈ (getVideoHandle c i o t).2 ↔
      (c.Size > 0 ∧ f = "-fs") ∨ (c.Time > 0 ∧ f = "-t") ∨
        (c.Copy = false ∧ f ∈ videoFlags) ∨ (c.Copy = true ∧ f = "-c") ∨
        (c.Audio = false ∧ f = "-an") ∨ (c.Audio = true ∧ f = "-c:a") := by
  have hbase := notMem_baseArgs c i (if t = "" then filepathBase o else t) f hff hi hhead hfixed
  rw [args_eq]
  simp only [List.mem_append, List.mem_singleton]
  rw [mem_sizeSeg_iff c f hhead, mem_timeSeg_iff c f hhead,
    mem_videoSeg_iff c f hnorm hhead, mem_audioSeg_iff c f hhead]
  tauto

theorem ne_of_notMem (s : String) (l : List String) (h : s ∉ l) (f : String) (hf : f ∈ l) :
    f ≠ s := fun he => h (he ▸ hf)

/-- C4: the assembled argument list carries the size-limit flag pair
`-fs <size>` exactly when `Size > 0`, and the duration flag pair
`-t <time>` exactly when `Time > 0` (for call strings that are not
themselves one of those two flags). -/
theorem C4_size_time_flags (c : Config) (i o t : String) (hnorm : Normalized c)
    (hiS : i ≠ "-fs") (hiT : i ≠ "-t") (hoS : o ≠ "-fs") (hoT : o ≠ "-t")
    (hfS : c.FFMPEG ≠ "-fs") (hfT : c.FFMPEG ≠ "-t") :
    ("-fs" ∈ (getVideoHandle c i o t).2 ↔ c.Size > 0) ∧
      (c.Size > 0 → List.IsInfix ["-fs", itoa c.Size] (getVideoHandle c i o t).2) ∧
      ("-t" ∈ (getVideoHandle c i o t).2 ↔ c.Time > 0) ∧
      (c.Time > 0 → List.IsInfix ["-t", itoa c.Time] (getVideoHandle c i o t).2) := by
  refine ⟨?_, ?_, ?_, ?_⟩
  · rw [flag_mem_args_iff c i o t "-fs" hnorm (Ne.symm hfS) (Ne.symm hiS) (Ne.symm hoS) rfl
      (by decide)]
    simp [videoFlags]
  · intro hS
    rw [args_eq]
    refine ⟨baseArgs c i (if t = "" then filepathBase o else t),
      timeSeg c ++ videoSeg c ++ audioSeg c ++ [o], ?_⟩
    simp [sizeSeg, hS]
  · rw [flag_mem_args_iff c i o t "-t" hnorm (Ne.symm hfT) (Ne.symm hiT) (Ne.symm hoT) rfl
      (by decide)]
    simp [videoFlags]
  · intro hT
    rw [args_eq]
    refine ⟨baseArgs c i (if t = "" then filepathBase o else t) ++ sizeSeg c,
      videoSeg c ++ audioSeg c ++ [o], ?_⟩
    simp [timeSeg, hT]

/-- Witness for C4 at the default configuration and a concrete call. -/
theorem C4_size_time_flags_witness :
    ("-fs" ∈ (getVideoHandle (get cfg0) "rtsp://x" "/tmp/out.mov" "T").2 ↔
        (get cfg0).Size > 0) ∧
      ((get cfg0).Size > 0 →
        List.IsInfix ["-fs", itoa (get cfg0).Size]
          (getVideoHandle (get cfg0) "rtsp://x" "/tmp/out.mov" "T").2) ∧
      ("-t" ∈ (getVideoHandle (get cfg0) "rtsp://x" "/tmp/out.mov" "T").2 ↔
        (get cfg0).Time > 0) ∧
      ((get cfg0).Time > 0 →
        List.IsInfix ["-t", itoa (get cfg0).Time]
          (getVideoHandle (get cfg0) "rtsp://x" "/tmp/out.mov" "T").2) :=
  C4_size_time_flags (get cfg0) "rtsp://x" "/tmp/out.mov" "T" (by decide) (by decide)
    (by decide) (by decide) (by decide) (by decide) (by decide)

/-- C7: in copy mode the command carries the generic stream-copy pair
`-c copy` and none of the transcode flags; out of copy mode it carries
every transcode flag (codec, profile, level, pixel format, fast-start,
size, preset, CRF, rate) and not the generic stream-copy flag (for
call strings that are not themselves one of these flags). -/
theorem C7_copy_mode (c : Config) (i o t : String) (hnorm : Normalized c)
    (hi : i ∉ "-c" :: videoFlags) (ho : o ∉ "-c" :: videoFlags)
    (hf : c.FFMPEG ∉ "-c" :: videoFlags) :
    (c.Copy = true →
      List.IsInfix ["-c", "copy"] (getVideoHandle c i o t).2 ∧
        ∀ f ∈ videoFlags, f ∉ (getVideoHandle c i o t).2) ∧
      (c.Copy = false →
        (∀ f ∈ videoFlags, f ∈ (getVideoHandle c i o t).2) ∧
          "-c" ∉ (getVideoHandle c i o t).2) := by
  constructor
  · intro hcp
    constructor
    · rw [args_eq]
      refine ⟨baseArgs c i (if t = "" then filepathBase o else t) ++ sizeSeg c ++ timeSeg c,
        audioSeg c ++ [o], ?_⟩
      simp [videoSeg, hcp]
    · intro f fmem
      have h1 : f ≠ c.FFMPEG := ne_of_notMem _ _ hf f (List.mem_cons_of_mem _ fmem)
      have h2 : f ≠ i := ne_of_notMem _ _ hi f (List.mem_cons_of_mem _ fmem)
      have h3 : f ≠ o := ne_of_notMem _ _ ho f (List.mem_cons_of_mem _ fmem)
      simp only [videoFlags, List.mem_cons, List.not_mem_nil, or_false] at fmem
      rcases fmem with rfl | rfl | rfl | rfl | rfl | rfl | rfl | rfl | rfl <;>
        rw [flag_mem_args_iff c i o t _ hnorm h1 h2 h3 rfl (by decide)] <;>
        simp [videoFlags, hcp]
  · intro hcp
    constructor
    · intro f fmem
      have h1 : f ≠ c.FFMPEG := ne_of_notMem _ _ hf f (List.mem_cons_of_mem _ fmem)
      have h2 : f ≠ i := ne_of_notMem _ _ hi f (List.mem_cons_of_mem _ fmem)
      have h3 : f ≠ o := ne_of_notMem _ _ ho f (List.mem_cons_of_mem _ fmem)
      simp only [videoFlags, List.mem_cons, List.not_mem_nil, or_false] at fmem
      rcases fmem with rfl | rfl | rfl | rfl | rfl | rfl | rfl | rfl | rfl <;>
        rw [flag_mem_args_iff c i o t _ hnorm h1 h2 h3 rfl (by decide)] <;>
        simp [videoFlags, hcp]
    · have h1 : "-c" ≠ c.FFMPEG := ne_of_notMem _ _ hf _ (List.mem_cons_self _ _)
      have h2 : "-c" ≠ i := ne_of_notMem _ _ hi _ (List.mem_cons_self _ _)
      have h3 : "-c" ≠ o := ne_of_notMem _ _ ho _ (List.mem_cons_self _ _)
      rw [flag_mem_args_iff c i o t "-c" hnorm h1 h2 h3 rfl (by decide)]
      simp [videoFlags, hcp]

/-- Witness for C7 at a copy-mode configuration and a concrete call. -/
theorem C7_copy_mode_witness :
    ((get { cfg0 with Copy := true }).Copy = true →
      List.IsInfix ["-c", "copy"]
          (getVideoHandle (get { cfg0 with Copy := true }) "rtsp://x" "/tmp/out.mov" "T").2 ∧
        ∀ f ∈ videoFlags,
          f ∉ (getVideoHandle (get { cfg0 with Copy := true }) "rtsp://x" "/tmp/out.mov" "T").2) ∧
      ((get { cfg0 with Copy := true }).Copy = false →
        (∀ f ∈ videoFlags,
          f ∈ (getVideoHandle (get { cfg0 with Copy := true }) "rtsp://x" "/tmp/out.mov" "T").2) ∧
          "-c" ∉ (getVideoHandle (get { cfg0 with Copy := true }) "rtsp://x" "/tmp/out.mov" "T").2) :=
  C7_copy_mode (get { cfg0 with Copy := true }) "rtsp://x" "/tmp/out.mov" "T" (by decide)
    (by decide) (by decide) (by decide)

/-- C2 fails on the code: a negative capture duration (here `-5`) is
preserved exactly by `fixValues`, but the assembler's duration segment
is guarded by `Time > 0`, so neither the duration flag nor the negative
value appears in the assembled argument list. -/
theorem C2_counterexample :
    (fixValues { cfg0 with Time := -5 }).Time = -5 ∧
      "-t" ∉ (getVideoHandle (get { cfg0 with Time := -5 }) "rtsp://x" "/tmp/out.mov" "T").2 ∧
      itoa (-5) ∉ (getVideoHandle (get { cfg0 with Time := -5 }) "rtsp://x" "/tmp/out.mov" "T").2 := by
  decide

/-- C2 as amended: the normalization pass preserves every negative
capture duration exactly (no lower clamp, no default), but the duration
flag is emitted only when `Time > 0`, so for a negative duration the
assembled argument list contains no `-t` flag at all and the negative
value never reaches the external tool. -/
theorem C2_negative_time_preserved_not_emitted (c : Config) (i o t : String)
    (hnorm : Normalized c) (hT : c.Time < 0)
    (hi : i ≠ "-t") (ho : o ≠ "-t") (hf : c.FFMPEG ≠ "-t") :
    (fixValues c).Time = c.Time ∧ "-t" ∉ (getVideoHandle c i o t).2 := by
  constructor
  · rw [fixValues_eq]
    exact fixTime_id c.Time (by omega) (by simp only [MaximumCaptureTime]; omega)
  · rw [flag_mem_args_iff c i o t "-t" hnorm (Ne.symm hf) (Ne.symm hi) (Ne.symm ho) rfl
      (by decide)]
    simp [videoFlags]
    omega

/-- Witness for the amended C2 at a concrete negative-time
configuration. -/
theorem C2_negative_time_preserved_not_emitted_witness :
    Normalized (get { cfg0 with Time := -5 }) ∧ (get { cfg0 with Time := -5 }).Time < 0 ∧
      (fixValues (get { cfg0 with Time := -5 })).Time = (get { cfg0 with Time := -5 }).Time ∧
      "-t" ∉ (getVideoHandle (get { cfg0 with Time := -5 }) "rtsp://x" "/tmp/out.mov" "T").2 :=
  ⟨by decide, by decide,
   C2_negative_time_preserved_not_emitted (get { cfg0 with Time := -5 }) "rtsp://x"
     "/tmp/out.mov" "T" (by decide) (by decide) (by decide) (by decide) (by decide)⟩

/-- C10: in stream mode the output destination is the sentinel "-", so
an empty title defaults to the base name of "-", which is "-" itself:
the spawned command's argument list carries the metadata flag with the
quoted dash title, not an empty or omitted title. -/
theorem C10_stream_title_dash (c : Config) (input : String) (h : input ≠ "") :
    getVideo c input "" =
        .spawn (getVideoHandle c input "-" "").1 (getVideoHandle c input "-" "").2 ∧
      filepathBase "-" = "-" ∧
      List.IsInfix ["-metadata", "title=\"-\""] (getVideoHandle c input "-" "").2 := by
  refine ⟨by simp [getVideo, h], by decide, ?_⟩
  rw [args_eq]
  refine ⟨[c.FFMPEG, "-v", "16", "-rtsp_transport", "tcp", "-i", input, "-f", "mov"],
    ["-y", "-map", "0"] ++ sizeSeg c ++ timeSeg c ++ videoSeg c ++ audioSeg c ++ ["-"], ?_⟩
  have htitle : "title=\"" ++ filepathBase "-" ++ "\"" = "title=\"-\"" := by decide
  simp [baseArgs, htitle]

/-- Witness for C10 at a concrete input. -/
theorem C10_stream_title_dash_witness :
    getVideo (get cfg0) "rtsp://x" "" =
        .spawn (getVideoHandle (get cfg0) "rtsp://x" "-" "").1
          (getVideoHandle (get cfg0) "rtsp://x" "-" "").2 ∧
      filepathBase "-" = "-" ∧
      List.IsInfix ["-metadata", "title=\"-\""]
        (getVideoHandle (get cfg0) "rtsp://x" "-" "").2 :=
  C10_stream_title_dash (get cfg0) "rtsp://x" (by decide)

end Ffmpeg
